import Mathlib

/-!
Verification of the agent-hand session manager (Rust) against its
natural-language specification.  The relevant Rust functions are shallowly
embedded as executable Lean definitions; machine strings are `List Char`
(or `String` where only equality and concatenation matter), timestamps are
`Int` seconds, and fallible operations return `Option`/`Except`.
-/

namespace AgentHand

set_option maxRecDepth 10000

/-! ## Basic string utilities (Rust `str` operations) -/

/-- Rust `str::contains(pat)`: substring containment. -/
def strContains : List Char → List Char → Bool
  | [], pat => pat.isEmpty
  | h :: t, pat => List.isPrefixOf pat (h :: t) || strContains t pat

/-- Rust `char::is_whitespace` (Unicode White_Space property). -/
def isWsChar (c : Char) : Bool :=
  c = ' ' || c = '\t' || c = '\n' || c = '\r' ||
  c.toNat = 0x0B || c.toNat = 0x0C || c.toNat = 0x85 || c.toNat = 0xA0 ||
  c.toNat = 0x1680 || (0x2000 ≤ c.toNat && c.toNat ≤ 0x200A) ||
  c.toNat = 0x2028 || c.toNat = 0x2029 || c.toNat = 0x202F ||
  c.toNat = 0x205F || c.toNat = 0x3000

/-- `line.trim().is_empty()`: the line holds only whitespace. -/
def isBlankLine (l : List Char) : Bool := l.all isWsChar

/-- ASCII lower-casing of one character (`str::to_lowercase`; the detector's
patterns are ASCII-only, so only the ASCII mapping is relevant). -/
def lowerChar (c : Char) : Char :=
  if 'A' ≤ c ∧ c ≤ 'Z' then Char.ofNat (c.toNat + 32) else c

/-- Rust `str::to_lowercase` on the ASCII range. -/
def toLowerL (l : List Char) : List Char := l.map lowerChar

/-- Split on `'\n'` (always returns at least one segment). -/
def splitNl : List Char → List (List Char)
  | [] => [[]]
  | c :: t =>
    if c = '\n' then [] :: splitNl t
    else
      match splitNl t with
      | s :: rest => (c :: s) :: rest
      | [] => [[c]]

/-- Remove one trailing `'\r'` (the `\r\n` handling of Rust `str::lines`). -/
def rstripCr (l : List Char) : List Char :=
  match l.reverse with
  | '\r' :: t => t.reverse
  | _ => l

/-- Rust `str::lines()`: split at `\n`, treat `\r\n` as a line ending, and do
not yield a final empty line for a trailing line ending. -/
def linesRust (l : List Char) : List (List Char) :=
  if l = [] then []
  else
    let segs := splitNl l
    let segs := if l.getLast? = some '\n' then segs.dropLast else segs
    segs.map rstripCr

/-- `Vec::join("\n")`. -/
def joinNl (ls : List (List Char)) : List Char := List.intercalate ['\n'] ls

/-! ## `strip_ansi` (detector.rs)

`Regex::replace_all` with pattern `\x1b\[[0-9;]*[a-zA-Z]|\x1b\][^\x07]*\x07`:
scan left to right; at each position try the CSI alternative (ESC `[`, a run
of digits/semicolons, one ASCII letter) then the OSC alternative (ESC `]`,
anything up to the first BEL); on a match drop it and resume after it, else
keep the character and advance one position.  Implemented with an explicit
fuel argument (one unit per consumed character) so it computes by `rfl`. -/

def escChar : Char := Char.ofNat 0x1b

def belChar : Char := Char.ofNat 0x07

def isCsiParam (c : Char) : Bool := ('0' ≤ c && c ≤ '9') || c = ';'

def isAsciiLetter (c : Char) : Bool := ('a' ≤ c && c ≤ 'z') || ('A' ≤ c && c ≤ 'Z')

/-- Split `l` at the first BEL: `some (before, after)` if a BEL occurs. -/
def splitAtBel : List Char → Option (List Char × List Char)
  | [] => none
  | c :: t =>
    if c = belChar then some ([], t)
    else (splitAtBel t).map (fun p => (c :: p.1, p.2))

def stripAnsiFuel : Nat → List Char → List Char
  | 0, _ => []
  | _ + 1, [] => []
  | fuel + 1, c :: cs =>
    if c = escChar then
      match cs with
      | '[' :: rest =>
        let params := rest.dropWhile isCsiParam
        match params with
        | d :: tail =>
          if isAsciiLetter d then stripAnsiFuel fuel tail
          else c :: stripAnsiFuel fuel cs
        | [] => c :: stripAnsiFuel fuel cs
      | ']' :: rest =>
        match splitAtBel rest with
        | some p => stripAnsiFuel fuel p.2
        | none => c :: stripAnsiFuel fuel cs
      | _ => c :: stripAnsiFuel fuel cs
    else
      c :: stripAnsiFuel fuel cs

/-- `strip_ansi` from detector.rs. -/
def stripAnsi (l : List Char) : List Char := stripAnsiFuel l.length l

/-! ## Detector (detector.rs) -/

/-- `get_last_lines(content, n)`: the last `n` lines whose trim is non-empty,
in original order. -/
def getLastLines (content : List Char) (n : Nat) : List (List Char) :=
  ((((linesRust content).reverse).filter (fun l => !isBlankLine l)).take n).reverse

/-- User-supplied detection rules (`StatusDetectionConfig` after
`set_status_detection_config`): substring patterns are stored lower-cased,
compiled regexes are modelled as opaque boolean matchers on the text. -/
structure DetectionConfig where
  promptContains : List (List Char)
  promptRegex : List (List Char → Bool)
  busyContains : List (List Char)
  busyRegex : List (List Char → Bool)

/-- The default (empty) rule set. -/
def emptyConfig : DetectionConfig :=
  { promptContains := [], promptRegex := [], busyContains := [], busyRegex := [] }

def busyIndicators : List (List Char) :=
  ["esc to interrupt".data, "(esc to interrupt)".data, "· esc to interrupt".data,
   "esc to cancel".data, "(esc to cancel)".data]

def spinnerChars : List Char := ['⠋', '⠙', '⠹', '⠸', '⠼', '⠴', '⠦', '⠧', '⠇', '⠏']

/-- `PromptDetector::is_busy`. -/
def isBusy (cfg : DetectionConfig) (content : List Char) : Bool :=
  let lines := getLastLines content 15
  let recentRaw := stripAnsi (joinNl lines)
  let recent := toLowerL recentRaw
  (busyIndicators.any (fun m => strContains recent m)) ||
  (let last3 := if lines.length > 3 then lines.drop (lines.length - 3) else lines
   last3.any (fun line => spinnerChars.any (fun c => line.contains c))) ||
  ((recent.filter (fun c => c = '⬝')).length ≥ 3) ||
  (strContains recent "thinking".data && strContains recent "tokens".data) ||
  (strContains recent "connecting".data && strContains recent "tokens".data) ||
  ((strContains recent "ctrl+c".data || strContains recent "ctrl-c".data) &&
    strContains recent "to interrupt".data &&
    (strContains recent "thinking".data || strContains recent "connecting".data ||
      strContains recent "tokens".data)) ||
  (cfg.busyContains.any (fun p => strContains recent p)) ||
  (cfg.busyRegex.any (fun re => re recentRaw))

def blockingPrompts : List (List Char) :=
  ["no, and tell claude what to do differently".data,
   "yes, allow once".data,
   "yes, allow always".data,
   "allow once".data,
   "allow always".data,
   "do you want to create".data,
   "do you want to run this command".data,
   "do you trust the files in this folder".data,
   "run this command?".data,
   "execute this?".data,
   "confirm with number keys".data,
   "continue?".data,
   "proceed?".data,
   "(y/n)".data,
   "[y/n]".data,
   "(yes/no)".data,
   "[yes/no]".data,
   "approve this plan?".data,
   "execute plan?".data,
   "enter to continue".data,
   "enter to select".data,
   "enter to confirm".data,
   "press enter to confirm".data,
   "press enter to confirm or esc to cancel".data]

def selectionIndicators : List (List Char) :=
  ["❯ yes".data, "❯ no".data, "❯ allow".data, "❯ 1.".data, "❯ 2.".data, "❯ 3.".data]

def boxPrompts : List (List Char) :=
  ["│ do you want".data, "│ would you like".data, "│ allow".data]

/-- `PromptDetector::has_prompt`. -/
def hasPrompt (cfg : DetectionConfig) (content : List Char) : Bool :=
  let lines := getLastLines content 15
  let recent := stripAnsi (joinNl lines)
  let recentLower := toLowerL recent
  (blockingPrompts.any (fun p => strContains recentLower p)) ||
  (selectionIndicators.any (fun p => strContains recentLower p)) ||
  (boxPrompts.any (fun p => strContains recentLower p)) ||
  (cfg.promptContains.any (fun p => strContains recentLower p)) ||
  (cfg.promptRegex.any (fun re => re recent))

/-! ## Session status and the classification paths -/

/-- Persisted/displayed session status (`Status` in instance.rs,
`SessionStatus` in session.rs). -/
inductive Status where
  | running
  | waiting
  | idle
  | error
  | starting
deriving DecidableEq, Repr

/-- The popup switcher's per-session classification (switcher.rs lines
254-260): `has_prompt` is tested first, then `is_busy`, else Idle. -/
def switcherClassify (cfg : DetectionConfig) (content : List Char) : Status :=
  if hasPrompt cfg content then Status.waiting
  else if isBusy cfg content then Status.running
  else Status.idle

/-- `TmuxSession::update_status` (session.rs lines 75-120), the status tick of
the CLI status/statusline/jump path.  Inputs: whether the session name is in
the adapter cache, the `capture_pane` outcome (`Except.error` = subprocess
spawn failure, which the `?` propagates), the cached activity value and the
memoized previous activity.  Returns the new status and new memoized
activity. -/
def sessionUpdateStatus (cfg : DetectionConfig) (present : Bool)
    (capture : Except Unit (List Char)) (activity : Option Int)
    (lastActivity : Option Int) : Except Unit (Status × Option Int) :=
  if !present then Except.ok (Status.error, lastActivity)
  else
    match capture with
    | Except.error _ => Except.error ()
    | Except.ok content =>
      let newStatus :=
        if hasPrompt cfg content then Status.waiting
        else
          match activity, lastActivity with
          | some current, some last =>
            if current > last then Status.running else Status.idle
          | _, _ => Status.idle
      let newLast := match activity with
        | some a => some a
        | none => lastActivity
      Except.ok (newStatus, newLast)

/-- The TUI's per-session timer state (app.rs `last_tmux_activity`,
`last_tmux_activity_change`, `last_status_probe` map entries; `none` =
no entry for the session). -/
structure TuiTimers where
  lastActivity : Option Int
  lastActivityChange : Option Int
  lastProbe : Option Int
deriving DecidableEq, Repr

/-- app.rs `STATUS_COOLDOWN` (seconds). -/
def statusCooldown : Int := 2

/-- app.rs `STATUS_FALLBACK` (seconds). -/
def statusFallback : Int := 60

/-- One session's step of `App::refresh_statuses` (app.rs lines 266-316).
Inputs: cache presence, cached activity (`unwrap_or(0)` applied inside),
captured content (`unwrap_or_default` applied by the caller on error), the
current instant, the previous displayed status and the timer entries. -/
def tuiRefreshOne (cfg : DetectionConfig) (present : Bool)
    (activity : Option Int) (content : List Char) (now : Int)
    (prevStatus : Status) (timers : TuiTimers) : Status × TuiTimers :=
  if !present then
    (Status.idle, { lastActivity := none, lastActivityChange := none, lastProbe := none })
  else
    let act := activity.getD 0
    let prevAct := timers.lastActivity
    if prevAct = none ∨ (∃ a, prevAct = some a ∧ act > a) then
      (Status.running,
        { timers with lastActivity := some act, lastActivityChange := some now })
    else
      let needFallback := match timers.lastProbe with
        | none => true
        | some t => now - t ≥ statusFallback
      let activitySettled := match timers.lastActivityChange with
        | none => false
        | some t => now - t ≥ statusCooldown
      if !(needFallback || (activitySettled && prevStatus = Status.running)) then
        (prevStatus, timers)
      else
        let st := if hasPrompt cfg content then Status.waiting else Status.idle
        (st, { timers with lastProbe := some now })

/-! ## Session instances and the priority/statusline logic -/

inductive Tool where
  | claude
  | gemini
  | opencode
  | codex
  | shell
deriving DecidableEq, Repr

inductive LabelColor where
  | gray
  | magenta
  | cyan
  | green
  | yellow
  | red
  | blue
deriving DecidableEq, Repr

/-- Persisted session record (instance.rs `Instance`, serialized fields
only); timestamps are `Int` seconds since the epoch. -/
structure Instance where
  id : String
  title : String
  projectPath : String
  groupPath : String
  parentSessionId : Option String
  command : String
  tool : Tool
  label : String
  labelColor : LabelColor
  status : Status
  createdAt : Int
  lastAccessedAt : Option Int
  lastRunningAt : Option Int
  lastWaitingAt : Option Int
  claudeSessionId : Option String
  claudeDetectedAt : Option Int
  geminiSessionId : Option String
  geminiDetectedAt : Option Int
deriving DecidableEq, Repr

/-- `TmuxManager::session_name(id)` = `SESSION_PREFIX + id` with
`SESSION_PREFIX = "agentdeck_rs_"`. -/
def sessionName (id : String) : String := "agentdeck_rs_" ++ id

/-- `Instance::tmux_name`. -/
def tmuxName (i : Instance) : String := sessionName i.id

/-- The Ready predicate used by statusline and jump:
`last_running_at.is_some_and(|t| (now - t).num_seconds() < ready_ttl_secs)`. -/
def isReady (now ttl : Int) (i : Instance) : Bool :=
  match i.lastRunningAt with
  | some t => now - t < ttl
  | none => false

/-- Rust `Iterator::max_by_key`: maximum by key, last maximal element on
ties. -/
def maxByKey {α : Type} (f : α → Int) : List α → Option α
  | [] => none
  | x :: xs =>
    match maxByKey f xs with
    | none => some x
    | some m => if f x > f m then some x else some m

/-- Key for the Waiting target: `last_waiting_at.unwrap_or(created_at)`. -/
def wkey (i : Instance) : Int := i.lastWaitingAt.getD i.createdAt

/-- Key for the statusline Ready target:
`last_running_at.unwrap_or(created_at)`. -/
def rkey (i : Instance) : Int := i.lastRunningAt.getD i.createdAt

/-- The statusline's char-based `truncate` closure (commands.rs lines
527-534): identity when at most `max` characters, else the first `max - 1`
characters followed by a one-character ellipsis. -/
def truncChars (s : String) (max : Nat) : String :=
  if s.data.length ≤ max then s
  else String.mk (s.data.take (max - 1) ++ ['…'])

/-- Status counters of `handle_statusline` (commands.rs lines 505-525). -/
structure Counts where
  waiting : Nat
  ready : Nat
  running : Nat
  idle : Nat
  error : Nat
deriving DecidableEq, Repr

def countOne (now ttl : Int) (c : Counts) (i : Instance) : Counts :=
  match i.status with
  | Status.waiting => { c with waiting := c.waiting + 1 }
  | Status.running => { c with running := c.running + 1 }
  | Status.idle =>
    if isReady now ttl i then { c with ready := c.ready + 1 }
    else { c with idle := c.idle + 1 }
  | Status.error => { c with error := c.error + 1 }
  | Status.starting => { c with idle := c.idle + 1 }

def statuslineCounts (l : List Instance) (now ttl : Int) : Counts :=
  l.foldl (countOne now ttl) { waiting := 0, ready := 0, running := 0, idle := 0, error := 0 }

/-- Target selection of `handle_statusline` (commands.rs lines 536-550):
if any session is Waiting, the waiting session with the largest
`last_waiting_at.unwrap_or(created_at)`; else the Idle-and-Ready session with
the largest `last_running_at.unwrap_or(created_at)`.  Returns the displayed
target string and the tmux name to publish.  The current session is never
excluded here. -/
def statuslineTarget (l : List Instance) (now ttl : Int) : String × Option String :=
  if (statuslineCounts l now ttl).waiting > 0 then
    match maxByKey wkey (l.filter (fun s => s.status = Status.waiting)) with
    | some s => ("! " ++ truncChars s.title 24, some (tmuxName s))
    | none => ("", none)
  else
    match maxByKey rkey (l.filter (fun s => s.status = Status.idle && isReady now ttl s)) with
    | some s => ("✓ " ++ truncChars s.title 24, some (tmuxName s))
    | none => ("", none)

/-- The value written to the `AGENTHAND_PRIORITY_SESSION` tmux global on a
statusline tick: the selected tmux name, or `""` when there is none. -/
def statuslinePublished (l : List Instance) (now ttl : Int) : String :=
  ((statuslineTarget l now ttl).2).getD ""

/-- The statusline output line (commands.rs lines 559-577): the base string
`"AH{target}  !w ✓r ●run ○idle  ^N"`, then `" ✕e"` appended when the error
count is non-zero, then `"  hint"` appended when an upgrade hint is cached. -/
def statuslineLine (target : String) (w r run idle err : Nat)
    (hint : Option String) : String :=
  let base := "AH" ++ (if target = "" then "" else " " ++ target) ++
    "  !" ++ toString w ++ " ✓" ++ toString r ++ " ●" ++ toString run ++
    " ○" ++ toString idle ++ "  ^N"
  let base := if err > 0 then base ++ " ✕" ++ toString err else base
  match hint with
  | some h => base ++ "  " ++ h
  | none => base

/-- One session plus the status its `update_status` call produced (equal to
the stored status when the call failed, since errors are discarded with
`let _ =`). -/
structure TickInst where
  inst : Instance
  newStatus : Status
deriving DecidableEq, Repr

/-- The per-session body of the statusline update loop (commands.rs lines
475-494): store the new status, bump `last_waiting_at` on a fresh Waiting
edge, bump `last_running_at` while Running at most once per 30 s.  Returns
the updated instance and whether it dirtied the catalog. -/
def statuslineUpdateOne (now : Int) (t : TickInst) : Instance × Bool :=
  let prev := t.inst.status
  let i1 : Instance := { t.inst with status := t.newStatus }
  let (i2, d1) :=
    if i1.status = Status.waiting ∧ prev ≠ Status.waiting then
      (({ i1 with lastWaitingAt := some now } : Instance), true)
    else (i1, false)
  let shouldTouch : Bool := (i2.status = Status.running) &&
    (match i2.lastRunningAt with
     | none => true
     | some tt => decide (now - tt ≥ 30))
  if shouldTouch then (({ i2 with lastRunningAt := some now } : Instance), true)
  else (i2, d1)

/-- The whole statusline update loop: updated instances and the dirty flag. -/
def statuslineUpdate (now : Int) (l : List TickInst) : List Instance × Bool :=
  l.foldr
    (fun t acc =>
      let (i, d) := statuslineUpdateOne now t
      (i :: acc.1, d || acc.2))
    ([], false)

/-! ## The full `handle_statusline` control flow (commands.rs lines 434-581)

The environment records the outcome of each fallible step; `Except.error`
models an error reaching `main`, which prints it and exits 1. -/

structure SlEnv where
  /-- `Storage::get_agent_hand_dir()` success inside the lock block. -/
  baseDirOk : Bool
  /-- opening `statusline.lock` succeeded. -/
  lockOpenOk : Bool
  /-- `try_lock_exclusive` succeeded (no other statusline instance). -/
  lockFree : Bool
  /-- `Storage::new` success (home dir, migration, create_dir_all). -/
  storageNewOk : Bool
  /-- reading and JSON-parsing sessions.json succeeded. -/
  loadOk : Bool
  /-- the loaded catalog, with each session's `update_status` outcome. -/
  sessions : List TickInst
  /-- `TmuxManager::refresh_cache` success (subprocess spawned). -/
  refreshOk : Bool
  /-- `Storage::save` success (only reached when the catalog is dirty). -/
  saveOk : Bool
  readyTtl : Int
  now : Int
  hint : Option String

/-- `handle_statusline`: the printed stdout lines, or an error that `main`
turns into a noisy exit 1. -/
def runStatusline (e : SlEnv) : Except Unit (List String) :=
  if e.baseDirOk ∧ e.lockOpenOk ∧ ¬ e.lockFree then Except.ok ["AH"]
  else if ¬ e.storageNewOk then Except.error ()
  else if ¬ e.loadOk then Except.error ()
  else if e.sessions = [] then Except.ok ["AH"]
  else if ¬ e.refreshOk then Except.error ()
  else
    let (insts, dirty) := statuslineUpdate e.now e.sessions
    if dirty ∧ ¬ e.saveOk then Except.error ()
    else
      let c := statuslineCounts insts e.now e.readyTtl
      let target := (statuslineTarget insts e.now e.readyTtl).1
      Except.ok [statuslineLine target c.waiting c.ready c.running c.idle c.error e.hint]

/-- main.rs lines 16-19: an error from the command is printed and the
process exits 1; otherwise exit 0 with the command's stdout. -/
def cliExit (r : Except Unit (List String)) : Nat × List String :=
  match r with
  | Except.ok outs => (0, outs)
  | Except.error _ => (1, [])

/-! ## `handle_jump` target selection (commands.rs lines 640-686) -/

/-- Priority 1: the Waiting session with the newest
`last_waiting_at.unwrap_or(created_at)` that is not the current session. -/
def jumpWaitingTarget (l : List Instance) (current : String) : Option Instance :=
  maxByKey wkey (l.filter (fun s => s.status = Status.waiting && tmuxName s ≠ current))

/-- Rust `str::cmp`'s strict "less than": lexicographic on scalar values
(equal to byte-wise UTF-8 order for valid strings). -/
def strLtB : List Char → List Char → Bool
  | [], [] => false
  | [], _ :: _ => true
  | _ :: _, [] => false
  | a :: as, b :: bs =>
    if a.toNat < b.toNat then true
    else if b.toNat < a.toNat then false
    else strLtB as bs

/-- Stable insertion into a list sorted by tmux name (equal keys keep
insertion order, matching `Vec::sort_by`'s stability). -/
def insertByName (x : Instance) : List Instance → List Instance
  | [] => [x]
  | y :: ys =>
    if strLtB (tmuxName x).data (tmuxName y).data then x :: y :: ys
    else y :: insertByName x ys

/-- `ready_sessions.sort_by(|a, b| a.tmux_name().cmp(&b.tmux_name()))`. -/
def sortByName (l : List Instance) : List Instance :=
  l.foldl (fun acc x => insertByName x acc) []

/-- Priority 2 (only when no Waiting target): Idle-and-Ready sessions sorted
by tmux name; none / the only one unless current / round-robin from the
current session's position. -/
def jumpReadyTarget (l : List Instance) (current : String) (now ttl : Int) :
    Option Instance :=
  let ready := sortByName (l.filter (fun s => s.status = Status.idle && isReady now ttl s))
  match ready with
  | [] => none
  | [only] => if tmuxName only ≠ current then some only else none
  | _ =>
    match ready.findIdx? (fun s => tmuxName s = current) with
    | some pos => ready.get? ((pos + 1) % ready.length)
    | none => ready.get? 0

/-- `handle_jump`'s final target: waiting target first, else ready target. -/
def jumpTarget (l : List Instance) (current : String) (now ttl : Int) :
    Option Instance :=
  match jumpWaitingTarget l current with
  | some t => some t
  | none => jumpReadyTarget l current now ttl

/-! ## Session id generation (instance.rs `generate_id`)

`Uuid::new_v4().to_string()` renders the 32 random hex nibbles in the
hyphenated 8-4-4-4-12 form; `generate_id` keeps its first 12 characters. -/

/-- The hyphenated rendering of a UUID given as 32 hex-digit characters. -/
def uuidHyphenated (d : List Char) : List Char :=
  d.take 8 ++ '-' :: ((d.drop 8).take 4 ++ '-' ::
    ((d.drop 12).take 4 ++ '-' :: ((d.drop 16).take 4 ++ '-' :: d.drop 20)))

/-- `generate_id`: the first 12 characters of the hyphenated UUID string. -/
def generateId (d : List Char) : String := String.mk ((uuidHyphenated d).take 12)

/-- Lowercase-hex digit (the alphabet of `Uuid::to_string`). -/
def isHexLower (c : Char) : Bool := ('0' ≤ c && c ≤ '9') || ('a' ≤ c && c ≤ 'f')

/-! ## The generic byte-index `truncate` helper (commands.rs lines 816-824)

`s.len()` is the UTF-8 byte length and `&s[..k]` panics when `k` is not a
character boundary; the model returns `none` exactly on a panic. -/

/-- UTF-8 encoded length of one scalar value. -/
def utf8Len (c : Char) : Nat :=
  if c.toNat < 0x80 then 1
  else if c.toNat < 0x800 then 2
  else if c.toNat < 0x10000 then 3
  else 4

/-- Rust `str::len`: UTF-8 byte length. -/
def byteLen (l : List Char) : Nat := (l.map utf8Len).sum

/-- Rust `&s[..k]`: the prefix of byte length `k`, or `none` (panic) when `k`
is not a character boundary (or exceeds the length). -/
def byteSlice (l : List Char) (k : Nat) : Option (List Char) :=
  if k = 0 then some []
  else
    match l with
    | [] => none
    | c :: t =>
      if utf8Len c ≤ k then (byteSlice t (k - utf8Len c)).map (fun r => c :: r)
      else none

/-- `fn truncate(s, max)` from commands.rs: byte-length test, byte-index
slices, `"..."` suffix. -/
def truncateBytes (s : List Char) (max : Nat) : Option (List Char) :=
  if byteLen s ≤ max then some s
  else if max ≤ 3 then byteSlice s max
  else (byteSlice s (max - 3)).map (fun r => r ++ "...".data)

/-! ## Store serialization (storage.rs / instance.rs / groups.rs)

The catalog is persisted as one JSON document (`serde_json`), modelled at
the JSON-value level: `to_string_pretty` followed by `from_str` is the
identity on JSON values, so the text layer is not re-modelled.  Timestamps
serialize to their RFC3339 string; the model renders the underlying `Int`
in decimal, an injective textual form with a total parser, which is what
the round-trip depends on. -/

inductive Json where
  | null
  | bool (b : Bool)
  | num (n : Int)
  | str (s : String)
  | arr (l : List Json)
  | obj (fields : List (String × Json))

/-- Decimal rendering of a `Nat`, big-endian, with explicit fuel (one unit
per digit) so it computes by `rfl`. -/
def natEncAux : Nat → Nat → List Char → List Char
  | 0, _, acc => acc
  | f + 1, n, acc =>
    if n < 10 then Nat.digitChar n :: acc
    else natEncAux f (n / 10) (Nat.digitChar (n % 10) :: acc)

def natEncode (n : Nat) : List Char := natEncAux (n + 1) n []

def digitVal (c : Char) : Option Nat :=
  if '0' ≤ c ∧ c ≤ '9' then some (c.toNat - 48) else none

def natDecodeAux (acc : Nat) : List Char → Option Nat
  | [] => some acc
  | c :: t =>
    match digitVal c with
    | some d => natDecodeAux (acc * 10 + d) t
    | none => none

def natDecode (l : List Char) : Option Nat :=
  if l = [] then none else natDecodeAux 0 l

def intEncode (i : Int) : List Char :=
  if i < 0 then '-' :: natEncode i.natAbs else natEncode i.toNat

def intDecode (l : List Char) : Option Int :=
  match l with
  | [] => none
  | c :: t =>
    if c = '-' then (natDecode t).map (fun n => -(n : Int))
    else (natDecode (c :: t)).map (fun n => (n : Int))

/-- A `DateTime<Utc>` as its serialized JSON string. -/
def timeToJson (t : Int) : Json := Json.str (String.mk (intEncode t))

def timeFromJson : Json → Option Int
  | Json.str s => intDecode s.data
  | _ => none

def optTimeToJson : Option Int → Json
  | none => Json.null
  | some t => timeToJson t

def optTimeFromJson : Json → Option (Option Int)
  | Json.null => some none
  | Json.str s => (intDecode s.data).map some
  | _ => none

def optStrToJson : Option String → Json
  | none => Json.null
  | some s => Json.str s

def optStrFromJson : Json → Option (Option String)
  | Json.null => some none
  | Json.str s => some (some s)
  | _ => none

def statusToJson : Status → Json
  | Status.running => Json.str "running"
  | Status.waiting => Json.str "waiting"
  | Status.idle => Json.str "idle"
  | Status.error => Json.str "error"
  | Status.starting => Json.str "starting"

def statusFromJson : Json → Option Status
  | Json.str "running" => some Status.running
  | Json.str "waiting" => some Status.waiting
  | Json.str "idle" => some Status.idle
  | Json.str "error" => some Status.error
  | Json.str "starting" => some Status.starting
  | _ => none

def toolToJson : Tool → Json
  | Tool.claude => Json.str "claude"
  | Tool.gemini => Json.str "gemini"
  | Tool.opencode => Json.str "opencode"
  | Tool.codex => Json.str "codex"
  | Tool.shell => Json.str "shell"

def toolFromJson : Json → Option Tool
  | Json.str "claude" => some Tool.claude
  | Json.str "gemini" => some Tool.gemini
  | Json.str "opencode" => some Tool.opencode
  | Json.str "codex" => some Tool.codex
  | Json.str "shell" => some Tool.shell
  | _ => none

def colorToJson : LabelColor → Json
  | LabelColor.gray => Json.str "gray"
  | LabelColor.magenta => Json.str "magenta"
  | LabelColor.cyan => Json.str "cyan"
  | LabelColor.green => Json.str "green"
  | LabelColor.yellow => Json.str "yellow"
  | LabelColor.red => Json.str "red"
  | LabelColor.blue => Json.str "blue"

def colorFromJson : Json → Option LabelColor
  | Json.str "gray" => some LabelColor.gray
  | Json.str "magenta" => some LabelColor.magenta
  | Json.str "cyan" => some LabelColor.cyan
  | Json.str "green" => some LabelColor.green
  | Json.str "yellow" => some LabelColor.yellow
  | Json.str "red" => some LabelColor.red
  | Json.str "blue" => some LabelColor.blue
  | _ => none

/-- Field lookup in a JSON object (serde matches values to fields by key). -/
def jget (fields : List (String × Json)) (k : String) : Option Json :=
  (fields.find? (fun p => p.1 = k)).map (fun p => p.2)

def jstr : Option Json → Option String
  | some (Json.str s) => some s
  | _ => none

/-- Serialization of `Instance` (serde derive: declared field order; the two
`#[serde(skip)]` runtime fields are absent). -/
def instToJson (i : Instance) : Json :=
  Json.obj
    [("id", Json.str i.id),
     ("title", Json.str i.title),
     ("project_path", Json.str i.projectPath),
     ("group_path", Json.str i.groupPath),
     ("parent_session_id", optStrToJson i.parentSessionId),
     ("command", Json.str i.command),
     ("tool", toolToJson i.tool),
     ("label", Json.str i.label),
     ("label_color", colorToJson i.labelColor),
     ("status", statusToJson i.status),
     ("created_at", timeToJson i.createdAt),
     ("last_accessed_at", optTimeToJson i.lastAccessedAt),
     ("last_running_at", optTimeToJson i.lastRunningAt),
     ("last_waiting_at", optTimeToJson i.lastWaitingAt),
     ("claude_session_id", optStrToJson i.claudeSessionId),
     ("claude_detected_at", optTimeToJson i.claudeDetectedAt),
     ("gemini_session_id", optStrToJson i.geminiSessionId),
     ("gemini_detected_at", optTimeToJson i.geminiDetectedAt)]

/-- Deserialization of `Instance`: required fields must be present;
`#[serde(default)]` fields fall back to their default and `Option` fields
to `none` when missing. -/
def instFromJson : Json → Option Instance
  | Json.obj f => do
    let id ← jstr (jget f "id")
    let title ← jstr (jget f "title")
    let projectPath ← jstr (jget f "project_path")
    let groupPath ← jstr (jget f "group_path")
    let parentSessionId ← optStrFromJson ((jget f "parent_session_id").getD Json.null)
    let command ← jstr (jget f "command")
    let tool ← match jget f "tool" with
      | none => some Tool.shell
      | some v => toolFromJson v
    let label ← match jget f "label" with
      | none => some ""
      | some v => jstr (some v)
    let labelColor ← match jget f "label_color" with
      | none => some LabelColor.gray
      | some v => colorFromJson v
    let status ← (jget f "status").bind statusFromJson
    let createdAt ← (jget f "created_at").bind timeFromJson
    let lastAccessedAt ← optTimeFromJson ((jget f "last_accessed_at").getD Json.null)
    let lastRunningAt ← optTimeFromJson ((jget f "last_running_at").getD Json.null)
    let lastWaitingAt ← optTimeFromJson ((jget f "last_waiting_at").getD Json.null)
    let claudeSessionId ← optStrFromJson ((jget f "claude_session_id").getD Json.null)
    let claudeDetectedAt ← optTimeFromJson ((jget f "claude_detected_at").getD Json.null)
    let geminiSessionId ← optStrFromJson ((jget f "gemini_session_id").getD Json.null)
    let geminiDetectedAt ← optTimeFromJson ((jget f "gemini_detected_at").getD Json.null)
    pure
      { id := id, title := title, projectPath := projectPath,
        groupPath := groupPath, parentSessionId := parentSessionId,
        command := command, tool := tool, label := label,
        labelColor := labelColor, status := status, createdAt := createdAt,
        lastAccessedAt := lastAccessedAt, lastRunningAt := lastRunningAt,
        lastWaitingAt := lastWaitingAt, claudeSessionId := claudeSessionId,
        claudeDetectedAt := claudeDetectedAt, geminiSessionId := geminiSessionId,
        geminiDetectedAt := geminiDetectedAt }
  | _ => none

/-- Persisted group record (groups.rs `GroupData`). -/
structure GroupData where
  name : String
  path : String
  expanded : Bool
  order : Int
deriving DecidableEq, Repr

def groupToJson (g : GroupData) : Json :=
  Json.obj
    [("name", Json.str g.name), ("path", Json.str g.path),
     ("expanded", Json.bool g.expanded), ("order", Json.num g.order)]

def groupFromJson : Json → Option GroupData
  | Json.obj f => do
    let name ← jstr (jget f "name")
    let path ← jstr (jget f "path")
    let expanded ← match jget f "expanded" with
      | some (Json.bool b) => some b
      | _ => none
    let order ← match jget f "order" with
      | some (Json.num n) => some n
      | _ => none
    pure { name := name, path := path, expanded := expanded, order := order }
  | _ => none

/-- Element-wise decoding of a JSON array (serde sequence semantics). -/
def decodeList {α : Type} (f : Json → Option α) : List Json → Option (List α)
  | [] => some []
  | j :: t => do
    let x ← f j
    let r ← decodeList f t
    pure (x :: r)

/-! ## GroupTree (groups.rs): a map from path to `GroupData`

The `HashMap` is modelled by its entry list; `from_groups` inserts each
saved record under its `path` key, `all_groups` lists the values sorted by
`(order, path)`. -/

/-- `HashMap::insert(g.path, g)` on the entry list. -/
def treeInsert (l : List GroupData) (g : GroupData) : List GroupData :=
  if l.any (fun h => h.path = g.path) then
    l.map (fun h => if h.path = g.path then g else h)
  else l ++ [g]

/-- `GroupTree::from_groups`. -/
def fromGroups (gs : List GroupData) : List GroupData :=
  gs.foldl treeInsert []

/-- The `all_groups` comparison `a.order.cmp(&b.order).then(a.path.cmp(&b.path))`
as a `≤` test. -/
def groupLeB (a b : GroupData) : Bool :=
  a.order < b.order || (a.order = b.order && a.path ≤ b.path)

def insertGroupSorted (x : GroupData) : List GroupData → List GroupData
  | [] => [x]
  | y :: ys => if groupLeB x y then x :: y :: ys else y :: insertGroupSorted x ys

/-- `GroupTree::all_groups`: the entries sorted by `(order, path)` (an
insertion sort; stability is irrelevant because the paths — the map keys —
are distinct). -/
def allGroups : List GroupData → List GroupData
  | [] => []
  | x :: xs => insertGroupSorted x (allGroups xs)

/-- `Storage::save` (storage.rs lines 215-240) at the JSON-value level:
the serialized `StorageData` with `instances`, `groups = tree.all_groups()`
and a fresh `updated_at`. -/
def saveModel (instances : List Instance) (tree : List GroupData)
    (updatedAt : Int) : Json :=
  Json.obj
    [("instances", Json.arr (instances.map instToJson)),
     ("groups", Json.arr ((allGroups tree).map groupToJson)),
     ("updated_at", timeToJson updatedAt)]

/-- `Storage::load` (storage.rs lines 200-212) at the JSON-value level:
parse the `StorageData` and rebuild the tree with `from_groups`. -/
def loadModel (j : Json) : Option (List Instance × List GroupData) :=
  match j with
  | Json.obj f => do
    let instJs ← match jget f "instances" with
      | some (Json.arr l) => some l
      | _ => none
    let instances ← decodeList instFromJson instJs
    let groupJs ← match jget f "groups" with
      | some (Json.arr l) => some l
      | _ => none
    let groups ← decodeList groupFromJson groupJs
    let _ ← (jget f "updated_at").bind timeFromJson
    pure (instances, fromGroups groups)
  | _ => none

/-! ## Spec-side renderings of the statusline (for the format claim)

Two renderings of §4.6's "Status line string" sentence: the order the claim
states (error marker before `" ^N"`) and the order the code produces (error
marker after `" ^N"`), with the code's spacing in both so that only the
ordering distinguishes them. -/

/-- The claim's stated segment order: counters, optional error marker, then
the `^N` key hint, then the upgrade hint. -/
def statuslineLineClaimOrder (target : String) (w r run idle err : Nat)
    (hint : Option String) : String :=
  "AH" ++ (if target = "" then "" else " " ++ target) ++
  "  !" ++ toString w ++ " ✓" ++ toString r ++ " ●" ++ toString run ++
  " ○" ++ toString idle ++
  (if err > 0 then " ✕" ++ toString err else "") ++
  "  ^N" ++
  (match hint with | some h => "  " ++ h | none => "")

/-- The amended segment order: counters, the `^N` key hint, then the optional
error marker, then the upgrade hint. -/
def statuslineLineAmended (target : String) (w r run idle err : Nat)
    (hint : Option String) : String :=
  "AH" ++ (if target = "" then "" else " " ++ target) ++
  "  !" ++ toString w ++ " ✓" ++ toString r ++ " ●" ++ toString run ++
  " ○" ++ toString idle ++
  "  ^N" ++
  (if err > 0 then " ✕" ++ toString err else "") ++
  (match hint with | some h => "  " ++ h | none => "")

/-! ## Concrete fixtures used by counterexamples and witnesses -/

/-- A Waiting session used for the priority-target claims. -/
def instC3 : Instance :=
  { id := "aaaa0000-bbb", title := "t3", projectPath := "/p", groupPath := "",
    parentSessionId := none, command := "", tool := Tool.shell, label := "",
    labelColor := LabelColor.gray, status := Status.waiting, createdAt := 10,
    lastAccessedAt := none, lastRunningAt := none, lastWaitingAt := some 50,
    claudeSessionId := none, claudeDetectedAt := none, geminiSessionId := none,
    geminiDetectedAt := none }

/-- An Idle-and-Ready session (`a`-named) for the round-robin claim. -/
def instC4a : Instance :=
  { id := "a0000000-aaa", title := "A", projectPath := "/p", groupPath := "",
    parentSessionId := none, command := "", tool := Tool.shell, label := "",
    labelColor := LabelColor.gray, status := Status.idle, createdAt := 10,
    lastAccessedAt := none, lastRunningAt := some 50, lastWaitingAt := none,
    claudeSessionId := none, claudeDetectedAt := none, geminiSessionId := none,
    geminiDetectedAt := none }

/-- An Idle-and-Ready session (`b`-named) for the round-robin claim. -/
def instC4b : Instance :=
  { id := "b0000000-bbb", title := "B", projectPath := "/p", groupPath := "",
    parentSessionId := none, command := "", tool := Tool.shell, label := "",
    labelColor := LabelColor.gray, status := Status.idle, createdAt := 10,
    lastAccessedAt := none, lastRunningAt := some 60, lastWaitingAt := none,
    claudeSessionId := none, claudeDetectedAt := none, geminiSessionId := none,
    geminiDetectedAt := none }

/-- A session exercising every field kind for the store round-trip witness. -/
def instC7 : Instance :=
  { id := "ab12cd34-e5f", title := "démo", projectPath := "/tmp/x",
    groupPath := "work/fe", parentSessionId := some "zz", command := "vim",
    tool := Tool.claude, label := "L", labelColor := LabelColor.red,
    status := Status.waiting, createdAt := 1700000000,
    lastAccessedAt := none, lastRunningAt := some 1700000100,
    lastWaitingAt := some (-5), claudeSessionId := none,
    claudeDetectedAt := some 0, geminiSessionId := some "g",
    geminiDetectedAt := none }

def gC7a : GroupData := { name := "fe", path := "work/fe", expanded := true, order := 0 }

def gC7b : GroupData := { name := "be", path := "work/be", expanded := false, order := 0 }

/-- A capture whose last 15 non-empty lines are all pure ANSI escapes, hiding
an earlier `continue?` prompt from the unstripped classifier. -/
def screenC8 : List Char :=
  "continue?".data ++ (List.replicate 15 ('\n' :: "\x1b[0m".data)).flatten

/-- A statusline environment whose catalog fails to parse. -/
def envC6 : SlEnv :=
  { baseDirOk := true, lockOpenOk := true, lockFree := true, storageNewOk := true,
    loadOk := false, sessions := [], refreshOk := true, saveOk := true,
    readyTtl := 2400, now := 0, hint := none }

/-- A statusline environment whose advisory lock is held by another
instance. -/
def envC6w : SlEnv :=
  { baseDirOk := true, lockOpenOk := true, lockFree := false, storageNewOk := true,
    loadOk := true, sessions := [], refreshOk := true, saveOk := true,
    readyTtl := 2400, now := 0, hint := none }

/-! ## Lemmas: decimal codec round-trip -/

theorem natEncAux_acc (f : Nat) : ∀ n acc, natEncAux f n acc = natEncAux f n [] ++ acc := by
  induction f with
  | zero => intro n acc; simp [natEncAux]
  | succ f ih =>
    intro n acc
    by_cases h : n < 10
    · simp [natEncAux, h]
    · simp only [natEncAux, if_neg h]
      rw [ih (n / 10) (Nat.digitChar (n % 10) :: acc), ih (n / 10) [Nat.digitChar (n % 10)]]
      simp

theorem natEncAux_fuel (n : Nat) : ∀ f, n < f → natEncAux f n [] = natEncAux (n + 1) n [] := by
  induction n using Nat.strong_induction_on with
  | _ n ih =>
    intro f hf
    match f, hf with
    | f + 1, hf =>
      by_cases h : n < 10
      · simp [natEncAux, h]
      · have hdiv : n / 10 < n := Nat.div_lt_self (by omega) (by omega)
        simp only [natEncAux, if_neg h]
        rw [natEncAux_acc f, natEncAux_acc n]
        rw [ih (n / 10) hdiv f (by omega), ih (n / 10) hdiv n (by omega)]

theorem natEncode_step (n : Nat) (h : ¬ n < 10) :
    natEncode n = natEncode (n / 10) ++ [Nat.digitChar (n % 10)] := by
  have h1 : natEncode n = natEncAux n (n / 10) [Nat.digitChar (n % 10)] := by
    simp only [natEncode, natEncAux, if_neg h]
  rw [h1, natEncAux_acc n, natEncAux_fuel (n / 10) n (by omega)]
  rfl

theorem natEncode_ne_nil (n : Nat) : natEncode n ≠ [] := by
  by_cases h : n < 10
  · simp [natEncode, natEncAux, h]
  · rw [natEncode_step n h]; simp

theorem digitVal_digitChar (d : Nat) (h : d < 10) :
    digitVal (Nat.digitChar d) = some d := by
  interval_cases d <;> decide

theorem natDecodeAux_append (xs ys : List Char) : ∀ acc,
    natDecodeAux acc (xs ++ ys) =
      match natDecodeAux acc xs with
      | some a => natDecodeAux a ys
      | none => none := by
  induction xs with
  | nil => intro acc; simp [natDecodeAux]
  | cons c t ih =>
    intro acc
    simp only [List.cons_append, natDecodeAux]
    cases digitVal c with
    | none => simp
    | some d => simp [ih]

theorem natRound (n : Nat) : natDecode (natEncode n) = some n := by
  induction n using Nat.strong_induction_on with
  | _ n ih =>
    by_cases h : n < 10
    · have he : natEncode n = [Nat.digitChar n] := by simp [natEncode, natEncAux, h]
      rw [he]
      simp [natDecode, natDecodeAux, digitVal_digitChar n h]
    · have hdiv : n / 10 < n := Nat.div_lt_self (by omega) (by omega)
      have ihd := ih (n / 10) hdiv
      rw [natEncode_step n h]
      have hne : natEncode (n / 10) ++ [Nat.digitChar (n % 10)] ≠ [] := by simp
      have hne2 := natEncode_ne_nil (n / 10)
      simp only [natDecode, if_neg hne, natDecodeAux_append]
      simp only [natDecode, if_neg hne2] at ihd
      rw [ihd]
      simp [natDecodeAux, digitVal_digitChar (n % 10) (by omega)]
      omega

theorem natEncode_head (n : Nat) : ∃ c t, natEncode n = c :: t ∧ c ≠ '-' := by
  induction n using Nat.strong_induction_on with
  | _ n ih =>
    by_cases h : n < 10
    · refine ⟨Nat.digitChar n, [], by simp [natEncode, natEncAux, h], ?_⟩
      interval_cases n <;> decide
    · have hdiv : n / 10 < n := Nat.div_lt_self (by omega) (by omega)
      obtain ⟨c, t, he, hc⟩ := ih (n / 10) hdiv
      exact ⟨c, t ++ [Nat.digitChar (n % 10)], by rw [natEncode_step n h, he]; rfl, hc⟩

theorem intRound (i : Int) : intDecode (intEncode i) = some i := by
  by_cases h : i < 0
  · simp only [intEncode, if_pos h, intDecode, if_pos rfl]
    rw [natRound]
    show some (-(i.natAbs : Int)) = some i
    exact congrArg some (by omega)
  · simp only [intEncode, if_neg h]
    obtain ⟨c, t, he, hc⟩ := natEncode_head i.toNat
    rw [he]
    simp only [intDecode, if_neg hc]
    rw [← he, natRound]
    simp
    omega

@[simp] theorem timeRound (t : Int) : timeFromJson (timeToJson t) = some t := by
  simp [timeToJson, timeFromJson, intRound]

@[simp] theorem optTimeRound (o : Option Int) :
    optTimeFromJson (optTimeToJson o) = some o := by
  cases o with
  | none => rfl
  | some t => simp [optTimeToJson, optTimeFromJson, timeToJson, intRound]

@[simp] theorem optStrRound (o : Option String) :
    optStrFromJson (optStrToJson o) = some o := by
  cases o <;> rfl

@[simp] theorem statusRound (s : Status) : statusFromJson (statusToJson s) = some s := by
  cases s <;> rfl

@[simp] theorem toolRound (t : Tool) : toolFromJson (toolToJson t) = some t := by
  cases t <;> rfl

@[simp] theorem colorRound (c : LabelColor) : colorFromJson (colorToJson c) = some c := by
  cases c <;> rfl

theorem instRound (i : Instance) : instFromJson (instToJson i) = some i := by
  simp only [instToJson, instFromJson, jget, List.find?, jstr]
  simp [Option.bind, timeRound, optTimeRound, optStrRound, statusRound, toolRound, colorRound]



@[simp] theorem groupRound (g : GroupData) : groupFromJson (groupToJson g) = some g := by
  simp [groupToJson, groupFromJson, jget, List.find?, jstr]

theorem decodeList_map {α : Type} (f : Json → Option α) (g : α → Json)
    (h : ∀ x, f (g x) = some x) : ∀ l, decodeList f (l.map g) = some l := by
  intro l
  induction l with
  | nil => rfl
  | cons x t ih => simp [decodeList, h x, ih]

theorem fromGroups_aux (l : List GroupData) : ∀ acc : List GroupData,
    (∀ g ∈ l, ∀ x ∈ acc, x.path ≠ g.path) →
    (l.map GroupData.path).Nodup →
    l.foldl treeInsert acc = acc ++ l := by
  induction l with
  | nil => intro acc _ _; simp
  | cons g t ih =>
    intro acc hfresh hnd
    have hins : treeInsert acc g = acc ++ [g] := by
      have : acc.any (fun h => h.path = g.path) = false := by
        simp only [List.any_eq_false, decide_eq_true_eq]
        intro x hx
        exact hfresh g (by simp) x hx
      simp [treeInsert, this]
    simp only [List.foldl_cons, hins]
    rw [ih (acc ++ [g]) ?fresh ?nd]
    · simp
    case fresh =>
      intro y hy x hx
      rcases List.mem_append.mp hx with hxa | hxg
      · exact hfresh y (by simp [hy]) x hxa
      · have hxeq : x = g := by simpa using hxg
        subst hxeq
        simp only [List.map_cons, List.nodup_cons] at hnd
        intro hcontra
        exact hnd.1 (hcontra ▸ List.mem_map_of_mem GroupData.path hy)
    case nd =>
      simp only [List.map_cons, List.nodup_cons] at hnd
      exact hnd.2

theorem insertGroupSorted_perm (x : GroupData) :
    ∀ l, List.Perm (insertGroupSorted x l) (x :: l) := by
  intro l
  induction l with
  | nil => exact List.Perm.refl _
  | cons y ys ih =>
    simp only [insertGroupSorted]
    by_cases h : groupLeB x y
    · simp only [if_pos h]; exact List.Perm.refl _
    · simp only [if_neg h]
      exact (List.Perm.cons y ih).trans (List.Perm.swap x y ys)

theorem allGroups_perm : ∀ l : List GroupData, List.Perm (allGroups l) l := by
  intro l
  induction l with
  | nil => exact List.Perm.refl _
  | cons x xs ih =>
    exact (insertGroupSorted_perm x (allGroups xs)).trans (List.Perm.cons x ih)

theorem groupLeB_total (a b : GroupData) : groupLeB a b = true ∨ groupLeB b a := by
  simp only [groupLeB, Bool.or_eq_true, decide_eq_true_eq, Bool.and_eq_true]
  rcases lt_trichotomy a.order b.order with h | h | h
  · exact Or.inl (Or.inl (by simpa using h))
  · rcases le_total a.path b.path with hp | hp
    · exact Or.inl (Or.inr ⟨by simpa using h, by simpa using hp⟩)
    · exact Or.inr (Or.inr ⟨by simp [h], by simpa using hp⟩)
  · exact Or.inr (Or.inl (by simpa using h))

theorem groupLeB_trans {a b c : GroupData} (h1 : groupLeB a b) (h2 : groupLeB b c) :
    groupLeB a c := by
  simp only [groupLeB, Bool.or_eq_true, decide_eq_true_eq, Bool.and_eq_true] at h1 h2 ⊢
  rcases h1 with h1 | ⟨h1e, h1p⟩ <;> rcases h2 with h2 | ⟨h2e, h2p⟩
  · exact Or.inl (by omega)
  · exact Or.inl (by omega)
  · exact Or.inl (by omega)
  · exact Or.inr ⟨by omega, le_trans (by simpa using h1p) (by simpa using h2p)⟩

def SortedG (l : List GroupData) : Prop :=
  List.Pairwise (fun a b => groupLeB a b = true) l

theorem insertGroupSorted_mem {x z : GroupData} {l : List GroupData}
    (hz : z ∈ insertGroupSorted x l) : z = x ∨ z ∈ l := by
  have hm := (insertGroupSorted_perm x l).mem_iff.mp hz
  rcases List.mem_cons.mp hm with h | h
  · exact Or.inl h
  · exact Or.inr h

theorem insertGroupSorted_sorted {x : GroupData} :
    ∀ {l}, SortedG l → SortedG (insertGroupSorted x l) := by
  intro l
  induction l with
  | nil => intro _; simp [insertGroupSorted, SortedG]
  | cons y ys ih =>
    intro hs
    rcases List.pairwise_cons.mp hs with ⟨hy, hys⟩
    simp only [insertGroupSorted]
    by_cases h : groupLeB x y
    · simp only [if_pos h]
      refine List.Pairwise.cons ?_ hs
      intro z hz
      rcases List.mem_cons.mp hz with rfl | hz
      · exact h
      · exact groupLeB_trans h (hy z hz)
    · simp only [if_neg h]
      have hyx : groupLeB y x := by
        rcases groupLeB_total x y with hxy | hyx
        · exact absurd hxy (by simpa using h)
        · exact hyx
      refine List.Pairwise.cons ?_ (ih hys)
      intro z hz
      rcases insertGroupSorted_mem hz with rfl | hz
      · exact hyx
      · exact hy z hz

theorem allGroups_sorted : ∀ l : List GroupData, SortedG (allGroups l) := by
  intro l
  induction l with
  | nil => simp [allGroups, SortedG]
  | cons x xs ih => exact insertGroupSorted_sorted ih

theorem allGroups_of_sorted : ∀ {l : List GroupData}, SortedG l → allGroups l = l := by
  intro l
  induction l with
  | nil => intro _; rfl
  | cons x xs ih =>
    intro hs
    rcases List.pairwise_cons.mp hs with ⟨hx, hxs⟩
    simp only [allGroups, ih hxs]
    cases xs with
    | nil => rfl
    | cons y ys => simp [insertGroupSorted, hx y (by simp)]

/-- C7: for every catalog (instances plus a group tree with its paths as
map keys), saving and re-loading returns the same instances in every
persisted field (including the persisted `status`) and the same group map,
given back in its canonical `(order, path)`-sorted form. -/
theorem c7_store_round_trip (insts : List Instance) (tree : List GroupData) (upd : Int)
    (hnd : (tree.map GroupData.path).Nodup) :
    loadModel (saveModel insts tree upd) = some (insts, allGroups tree) ∧
    allGroups (allGroups tree) = allGroups tree := by
  constructor
  · have hnd2 : ((allGroups tree).map GroupData.path).Nodup :=
      (((allGroups_perm tree).map GroupData.path).nodup_iff).mpr hnd
    have hfg : fromGroups (allGroups tree) = allGroups tree := by
      have := fromGroups_aux (allGroups tree) [] (by simp) hnd2
      simpa [fromGroups] using this
    simp only [saveModel, loadModel, jget, List.find?]
    simp [decodeList_map instFromJson instToJson instRound,
      decodeList_map groupFromJson groupToJson groupRound, timeRound, hfg]
  · exact allGroups_of_sorted (allGroups_sorted tree)


theorem maxByKey_cons {α : Type} (f : α → Int) (x : α) (xs : List α) :
    maxByKey f (x :: xs) =
      match maxByKey f xs with
      | none => some x
      | some m => if f x > f m then some x else some m := rfl

theorem maxByKey_mem {α : Type} (f : α → Int) :
    ∀ {l : List α} {m : α}, maxByKey f l = some m → m ∈ l := by
  intro l
  induction l with
  | nil => intro m h; simp [maxByKey] at h
  | cons x xs ih =>
    intro m h
    rw [maxByKey_cons] at h
    cases hx : maxByKey f xs with
    | none => rw [hx] at h; simp at h; simp [h]
    | some m2 =>
      rw [hx] at h
      simp only at h
      by_cases hgt : f x > f m2
      · rw [if_pos hgt] at h; simp at h; simp [h]
      · rw [if_neg hgt] at h
        simp at h
        exact List.mem_cons_of_mem x (ih (h ▸ hx))

theorem maxByKey_le {α : Type} (f : α → Int) :
    ∀ {l : List α} {m : α}, maxByKey f l = some m → ∀ x ∈ l, f x ≤ f m := by
  intro l
  induction l with
  | nil => intro m h; simp [maxByKey] at h
  | cons x xs ih =>
    intro m h y hy
    rw [maxByKey_cons] at h
    cases hx : maxByKey f xs with
    | none =>
      rw [hx] at h
      simp at h
      have hnil : xs = [] := by
        cases xs with
        | nil => rfl
        | cons a as =>
          rw [maxByKey_cons] at hx
          cases hx2 : maxByKey f as <;> rw [hx2] at hx <;> simp at hx
          split at hx <;> simp at hx
      subst hnil
      rcases List.mem_singleton.mp hy with rfl
      simp [h]
    | some m2 =>
      rw [hx] at h
      simp only at h
      rcases List.mem_cons.mp hy with rfl | hy2
      · by_cases hgt : f y > f m2
        · rw [if_pos hgt] at h; simp at h; simp [h]
        · rw [if_neg hgt] at h; simp at h; subst h; omega
      · have hle := ih hx y hy2
        by_cases hgt : f x > f m2
        · rw [if_pos hgt] at h; simp at h; subst h; omega
        · rw [if_neg hgt] at h; simp at h; subst h; exact hle

theorem maxByKey_isSome {α : Type} (f : α → Int) :
    ∀ {l : List α}, l ≠ [] → ∃ m, maxByKey f l = some m := by
  intro l h
  cases l with
  | nil => exact absurd rfl h
  | cons x xs =>
    rw [maxByKey_cons]
    cases hx : maxByKey f xs with
    | none => exact ⟨x, rfl⟩
    | some m2 =>
      by_cases hgt : f x > f m2
      · exact ⟨x, by simp only; rw [if_pos hgt]⟩
      · exact ⟨m2, by simp only; rw [if_neg hgt]⟩

theorem counts_waiting_aux (now ttl : Int) :
    ∀ (l : List Instance) (c : Counts),
      (l.foldl (countOne now ttl) c).waiting =
        c.waiting + (l.filter (fun s => s.status = Status.waiting)).length := by
  intro l
  induction l with
  | nil => intro c; simp
  | cons x xs ih =>
    intro c
    simp only [List.foldl_cons, ih, List.filter_cons]
    cases hx : x.status
    · simp [countOne, hx]
    · simp [countOne, hx]; omega
    · by_cases hr : isReady now ttl x
      · simp [countOne, hx, hr]
      · simp [countOne, hx, hr]
    · simp [countOne, hx]
    · simp [countOne, hx]

theorem counts_waiting (l : List Instance) (now ttl : Int) :
    (statuslineCounts l now ttl).waiting =
      (l.filter (fun s => s.status = Status.waiting)).length := by
  simp [statuslineCounts, counts_waiting_aux]

theorem stripAnsi_of_no_esc : ∀ {l : List Char}, escChar ∉ l → stripAnsi l = l := by
  intro l
  induction l with
  | nil => intro _; rfl
  | cons c cs ih =>
    intro h
    have hc : c ≠ escChar := fun hc => h (hc ▸ List.mem_cons_self c cs)
    have hcs : escChar ∉ cs := fun hm => h (List.mem_cons_of_mem c hm)
    show stripAnsiFuel (cs.length + 1) (c :: cs) = c :: cs
    simp only [stripAnsiFuel, if_neg hc]
    exact congrArg (c :: ·) (ih hcs)


/-- C1 counterexample: a screen showing a spinner together with a leftover
"Continue?" satisfies a Busy rule yet classifies Waiting, and adding a user
prompt rule reclassifies a plain Busy (spinner) screen to Waiting. -/
theorem c1_counterexample :
    isBusy emptyConfig "⠋ Working\nContinue?".data = true ∧
    switcherClassify emptyConfig "⠋ Working\nContinue?".data = Status.waiting ∧
    switcherClassify emptyConfig "⠋ Working".data = Status.running ∧
    switcherClassify { emptyConfig with promptContains := ["working".data] }
      "⠋ Working".data = Status.waiting := by
  refine ⟨by decide, by decide, by decide, by decide⟩

/-- C1 (amended): in every classification path the Waiting test runs first:
a screen matching any prompt rule classifies Waiting even when a Busy rule
also matches; a Busy screen classifies Running only when no prompt rule
matches; the CLI tick likewise maps any prompt-matching capture to Waiting. -/
theorem c1_waiting_over_busy (cfg : DetectionConfig) (content : List Char) :
    (hasPrompt cfg content = true → switcherClassify cfg content = Status.waiting) ∧
    (hasPrompt cfg content = false → isBusy cfg content = true →
      switcherClassify cfg content = Status.running) ∧
    (∀ activity lastActivity, hasPrompt cfg content = true →
      sessionUpdateStatus cfg true (Except.ok content) activity lastActivity =
        Except.ok (Status.waiting,
          match activity with | some a => some a | none => lastActivity)) := by
  refine ⟨?_, ?_, ?_⟩
  · intro h; simp [switcherClassify, h]
  · intro h hb; simp [switcherClassify, h, hb]
  · intro activity lastActivity h
    simp [sessionUpdateStatus, h]

/-- C1 witness. -/
theorem c1_witness :
    switcherClassify emptyConfig "Continue? (y/n)".data = Status.waiting ∧
    switcherClassify emptyConfig "⠋ Processing...".data = Status.running := by
  exact ⟨(c1_waiting_over_busy emptyConfig "Continue? (y/n)".data).1 (by decide),
    (c1_waiting_over_busy emptyConfig "⠋ Processing...".data).2.1 (by decide) (by decide)⟩

/-- C2 counterexample: the TUI refresh maps a session that is missing from
the adapter cache to Idle, not Error. -/
theorem c2_counterexample :
    tuiRefreshOne emptyConfig false (some 5) "x".data 100 Status.running
        { lastActivity := some 1, lastActivityChange := some 2, lastProbe := some 3 } =
      (Status.idle,
        { lastActivity := none, lastActivityChange := none, lastProbe := none }) ∧
    Status.idle ≠ Status.error := by
  exact ⟨rfl, by decide⟩

/-- C2 (amended): on a cache miss the CLI tick sets Error and leaves the
memoized activity (and the per-session timestamps) untouched, while the TUI
refresh sets Idle and removes the session's activity/probe timer entries. -/
theorem c2_missing_session (cfg : DetectionConfig) (capture : Except Unit (List Char))
    (activity lastActivity : Option Int) (content : List Char) (now : Int)
    (prevStatus : Status) (timers : TuiTimers) :
    sessionUpdateStatus cfg false capture activity lastActivity =
      Except.ok (Status.error, lastActivity) ∧
    tuiRefreshOne cfg false activity content now prevStatus timers =
      (Status.idle,
        { lastActivity := none, lastActivityChange := none, lastProbe := none }) := by
  exact ⟨rfl, rfl⟩

/-- C8 counterexample: stripping ANSI escapes changes which lines fall into
the last-15-non-empty window, so the classification differs. -/
theorem c8_counterexample :
    switcherClassify emptyConfig screenC8 = Status.idle ∧
    switcherClassify emptyConfig (stripAnsi screenC8) = Status.waiting ∧
    switcherClassify emptyConfig (stripAnsi screenC8) ≠
      switcherClassify emptyConfig screenC8 := by
  refine ⟨by decide, by decide, by decide⟩

/-- C8 (amended): classification is invariant under ANSI stripping for every
capture that contains no escape character (stripping is then the identity). -/
theorem c8_classify_strip (cfg : DetectionConfig) (x : List Char)
    (h : escChar ∉ x) :
    switcherClassify cfg (stripAnsi x) = switcherClassify cfg x := by
  rw [stripAnsi_of_no_esc h]

/-- C8 witness. -/
theorem c8_witness :
    escChar ∉ "Continue?".data ∧
    switcherClassify emptyConfig (stripAnsi "Continue?".data) =
      switcherClassify emptyConfig "Continue?".data := by
  exact ⟨by decide, c8_classify_strip emptyConfig "Continue?".data (by decide)⟩

/-- C9 counterexample: the generated id is the first 12 characters of the
hyphenated UUID string, so its character at index 8 is a hyphen, not a hex
digit. -/
theorem c9_counterexample :
    generateId (List.replicate 32 '0') = "00000000-000" ∧
    (generateId (List.replicate 32 '0')).data.get? 8 = some '-' ∧
    isHexLower '-' = false := by
  refine ⟨by decide, by decide, by decide⟩

/-- C10: the generic byte-index truncate helper panics on multi-byte input:
an 11-character è-style title has 22 UTF-8 bytes, and slicing at byte 17
falls inside a character. -/
theorem c10_truncate_panics :
    truncateBytes "ééééééééééé".data 20 = none ∧
    byteLen "ééééééééééé".data = 22 ∧
    truncateBytes "abcdefghijk".data 20 = some "abcdefghijk".data := by
  refine ⟨by decide, by decide, by decide⟩


/-- C3 (amended): the jump command picks the newest-`last_waiting_at`
(fallback `created_at`) Waiting session among the sessions that are not the
current one, while the statusline publishes the newest Waiting session into
`AGENTHAND_PRIORITY_SESSION` without excluding the current session. -/
theorem c3_waiting_targets (l : List Instance) (current : String) (now ttl : Int)
    (w : Instance) (hw : w ∈ l) (hst : w.status = Status.waiting) :
    ((tmuxName w ≠ current) →
      ∃ t, jumpWaitingTarget l current = some t ∧ t ∈ l ∧
        t.status = Status.waiting ∧ tmuxName t ≠ current ∧
        ∀ s ∈ l, s.status = Status.waiting → tmuxName s ≠ current →
          wkey s ≤ wkey t) ∧
    (∃ t, statuslineTarget l now ttl =
        ("! " ++ truncChars t.title 24, some (tmuxName t)) ∧
      t ∈ l ∧ t.status = Status.waiting ∧
      statuslinePublished l now ttl = tmuxName t ∧
      ∀ s ∈ l, s.status = Status.waiting → wkey s ≤ wkey t) := by
  constructor
  · intro hcur
    have hwf : w ∈ l.filter (fun s => s.status = Status.waiting && tmuxName s ≠ current) := by
      simp [List.mem_filter, hw, hst, hcur]
    have hne : l.filter (fun s => s.status = Status.waiting && tmuxName s ≠ current) ≠ [] :=
      List.ne_nil_of_mem hwf
    obtain ⟨t, ht⟩ := maxByKey_isSome wkey hne
    have htmem := maxByKey_mem wkey ht
    have htprop := List.mem_filter.mp htmem
    refine ⟨t, ht, htprop.1, ?_, ?_, ?_⟩
    · have := htprop.2; simp at this; exact this.1
    · have := htprop.2; simp at this; exact this.2
    · intro s hs hsw hscur
      refine maxByKey_le wkey ht s ?_
      simp [List.mem_filter, hs, hsw, hscur]
  · have hwf : w ∈ l.filter (fun s => s.status = Status.waiting) := by
      simp [List.mem_filter, hw, hst]
    have hne : l.filter (fun s => s.status = Status.waiting) ≠ [] :=
      List.ne_nil_of_mem hwf
    obtain ⟨t, ht⟩ := maxByKey_isSome wkey hne
    have htmem := maxByKey_mem wkey ht
    have htprop := List.mem_filter.mp htmem
    have hcount : (statuslineCounts l now ttl).waiting > 0 := by
      rw [counts_waiting]
      have : 0 < (l.filter (fun s => s.status = Status.waiting)).length :=
        List.length_pos.mpr hne
      omega
    have htarget : statuslineTarget l now ttl =
        ("! " ++ truncChars t.title 24, some (tmuxName t)) := by
      simp only [statuslineTarget, if_pos hcount, ht]
    refine ⟨t, htarget, htprop.1, by simpa using htprop.2, ?_, ?_⟩
    · simp [statuslinePublished, htarget]
    · intro s hs hsw
      refine maxByKey_le wkey ht s ?_
      simp [List.mem_filter, hs, hsw]

/-- C3 counterexample: with a single Waiting session that is the current
session, jump has no target but the statusline still publishes that
session's name (non-empty) as the priority session. -/
theorem c3_counterexample :
    statuslinePublished [instC3] 100 2400 = tmuxName instC3 ∧
    jumpWaitingTarget [instC3] (tmuxName instC3) = none ∧
    tmuxName instC3 ≠ "" := by
  refine ⟨by decide, by decide, by decide⟩

/-- C3 witness. -/
theorem c3_witness :
    ((tmuxName instC3 ≠ "other") →
      ∃ t, jumpWaitingTarget [instC3] "other" = some t ∧ t ∈ [instC3] ∧
        t.status = Status.waiting ∧ tmuxName t ≠ "other" ∧
        ∀ s ∈ [instC3], s.status = Status.waiting → tmuxName s ≠ "other" →
          wkey s ≤ wkey t) ∧
    (∃ t, statuslineTarget [instC3] 100 2400 =
        ("! " ++ truncChars t.title 24, some (tmuxName t)) ∧
      t ∈ [instC3] ∧ t.status = Status.waiting ∧
      statuslinePublished [instC3] 100 2400 = tmuxName t ∧
      ∀ s ∈ [instC3], s.status = Status.waiting → wkey s ≤ wkey t) :=
  c3_waiting_targets [instC3] "other" 100 2400 instC3 (by decide) (by decide)


/-- C4: with no Waiting session the jump target comes from the
Idle-and-Ready sessions sorted by tmux session name: none for 0 candidates;
the single candidate unless it is current; with 2 or more candidates the
element at `(pos + 1) % len`, or the head when the current session is not a
candidate. -/
theorem c4_ready_round_robin (l : List Instance) (current : String) (now ttl : Int) :
    ((∀ s ∈ l, s.status ≠ Status.waiting) →
      jumpTarget l current now ttl = jumpReadyTarget l current now ttl) ∧
    (sortByName (l.filter (fun s => s.status = Status.idle && isReady now ttl s)) = [] →
      jumpReadyTarget l current now ttl = none) ∧
    (∀ c, sortByName (l.filter (fun s => s.status = Status.idle && isReady now ttl s)) = [c] →
      jumpReadyTarget l current now ttl =
        if tmuxName c = current then none else some c) ∧
    (∀ cands,
      sortByName (l.filter (fun s => s.status = Status.idle && isReady now ttl s)) = cands →
      2 ≤ cands.length →
      ((∀ pos, cands.findIdx? (fun s => tmuxName s = current) = some pos →
          jumpReadyTarget l current now ttl = cands.get? ((pos + 1) % cands.length)) ∧
        (cands.findIdx? (fun s => tmuxName s = current) = none →
          jumpReadyTarget l current now ttl = cands.get? 0))) := by
  refine ⟨?_, ?_, ?_, ?_⟩
  · intro hnw
    have hfe : l.filter (fun s => s.status = Status.waiting && tmuxName s ≠ current) = [] := by
      rw [List.filter_eq_nil_iff]
      intro s hs
      simp [hnw s hs]
    have hwt : jumpWaitingTarget l current = none := by
      rw [jumpWaitingTarget, hfe]; rfl
    simp [jumpTarget, hwt]
  · intro h
    simp [jumpReadyTarget, h]
  · intro c h
    simp only [jumpReadyTarget, h]
    by_cases hc : tmuxName c = current
    · simp [hc]
    · simp [hc]
  · intro cands hcands hlen
    match cands, hlen with
    | a :: b :: rest, _ =>
      constructor
      · intro pos hpos
        simp only [jumpReadyTarget, hcands, hpos]
      · intro hpos
        simp only [jumpReadyTarget, hcands, hpos]

/-- C4 witness. -/
theorem c4_witness :
    jumpReadyTarget [instC4b, instC4a] (tmuxName instC4a) 100 2400 = some instC4b := by
  have h := ((c4_ready_round_robin [instC4b, instC4a] (tmuxName instC4a) 100 2400).2.2.2
    (sortByName ([instC4b, instC4a].filter
      (fun s => s.status = Status.idle && isReady 100 2400 s))) rfl (by decide)).1
    0 (by decide)
  rw [h]
  decide


/-- C5 counterexample: the code appends the error marker after the `" ^N"`
segment, while the claim places it before; at one Waiting and one Error
session the two orders produce different lines. -/
theorem c5_counterexample :
    statuslineLine "! t" 1 0 0 0 1 none = "AH ! t  !1 ✓0 ●0 ○0  ^N ✕1" ∧
    statuslineLineClaimOrder "! t" 1 0 0 0 1 none = "AH ! t  !1 ✓0 ●0 ○0 ✕1  ^N" ∧
    statuslineLine "! t" 1 0 0 0 1 none ≠ statuslineLineClaimOrder "! t" 1 0 0 0 1 none := by
  refine ⟨by decide, by decide, by decide⟩

/-- C5 (amended): the line is "AH", the optional target segment, the
counters, then " ^N", then the optional " ✕e" (exactly when the error count
is non-zero), then the cached hint; the target title is truncated to at most
24 characters, with a 23-character prefix plus one ellipsis character on
overflow. -/
theorem c5_line_format (target : String) (w r run idle err : Nat)
    (hint : Option String) (s : String) :
    statuslineLine target w r run idle err hint =
      statuslineLineAmended target w r run idle err hint ∧
    (truncChars s 24).data.length ≤ 24 ∧
    (24 < s.data.length →
      ∃ t : List Char, (truncChars s 24).data = t ++ ['…'] ∧ t.length = 23) := by
  refine ⟨?_, ?_, ?_⟩
  · by_cases he : err > 0 <;> cases hint <;>
      simp [statuslineLine, statuslineLineAmended, he, ← String.append_assoc]
  · by_cases hle : s.data.length ≤ 24
    · simp only [truncChars, if_pos hle]
      exact hle
    · simp only [truncChars, if_neg hle]
      show (s.data.take 23 ++ ['…']).length ≤ 24
      simp only [List.length_append, List.length_take, List.length_singleton]
      omega
  · intro hgt
    have hle : ¬ s.data.length ≤ 24 := by omega
    refine ⟨s.data.take 23, ?_, ?_⟩
    · simp only [truncChars, if_neg hle]
    · simp only [List.length_take]
      omega

/-- C5 witness. -/
theorem c5_witness :
    statuslineLine "✓ T" 0 1 2 3 0 (some "h") =
      statuslineLineAmended "✓ T" 0 1 2 3 0 (some "h") ∧
    (truncChars "abcdefghijklmnopqrstuvwxyz012" 24).data.length ≤ 24 ∧
    (24 < "abcdefghijklmnopqrstuvwxyz012".data.length →
      ∃ t : List Char, (truncChars "abcdefghijklmnopqrstuvwxyz012" 24).data = t ++ ['…'] ∧
        t.length = 23) :=
  c5_line_format "✓ T" 0 1 2 3 0 (some "h") "abcdefghijklmnopqrstuvwxyz012"

/-- C6 counterexample: a catalog that fails to load makes the statusline
command return an error, which `main` reports noisily with exit status 1
instead of printing "AH" and exiting 0. -/
theorem c6_counterexample :
    cliExit (runStatusline envC6) = (1, []) ∧
    ((1, ([] : List String)) ≠ ((0, ["AH"]) : Nat × List String)) := by
  exact ⟨rfl, by decide⟩

/-- C6 (amended): the statusline emits "AH" and exits 0 when the advisory
lock is held or the catalog is empty, but storage-directory, catalog-load
and cache-refresh failures propagate and exit 1. -/
theorem c6_statusline_exits (e : SlEnv) :
    (e.baseDirOk = true → e.lockOpenOk = true → e.lockFree = false →
      cliExit (runStatusline e) = (0, ["AH"])) ∧
    (e.lockFree = true → e.storageNewOk = true → e.loadOk = true →
      e.sessions = [] → cliExit (runStatusline e) = (0, ["AH"])) ∧
    (e.lockFree = true → e.storageNewOk = false →
      (cliExit (runStatusline e)).1 = 1) ∧
    (e.lockFree = true → e.storageNewOk = true → e.loadOk = false →
      (cliExit (runStatusline e)).1 = 1) ∧
    (e.lockFree = true → e.storageNewOk = true → e.loadOk = true →
      e.sessions ≠ [] → e.refreshOk = false →
      (cliExit (runStatusline e)).1 = 1) ∧
    (e.lockFree = true → e.storageNewOk = true → e.loadOk = true →
      e.sessions ≠ [] → e.refreshOk = true →
      (statuslineUpdate e.now e.sessions).2 = true → e.saveOk = false →
      (cliExit (runStatusline e)).1 = 1) := by
  refine ⟨?_, ?_, ?_, ?_, ?_, ?_⟩
  · intro h1 h2 h3
    simp [runStatusline, cliExit, h1, h2, h3]
  · intro h1 h2 h3 h4
    simp [runStatusline, cliExit, h1, h2, h3, h4]
  · intro h1 h2
    simp [runStatusline, cliExit, h1, h2]
  · intro h1 h2 h3
    simp [runStatusline, cliExit, h1, h2, h3]
  · intro h1 h2 h3 h4 h5
    simp [runStatusline, cliExit, h1, h2, h3, h4, h5]
  · intro h1 h2 h3 h4 h5 h6 h7
    simp [runStatusline, cliExit, h1, h2, h3, h4, h5, h6, h7]

/-- C6 witness. -/
theorem c6_witness : cliExit (runStatusline envC6w) = (0, ["AH"]) :=
  (c6_statusline_exits envC6w).1 rfl rfl rfl


/-- C7 witness. -/
theorem c7_witness :
    (([gC7a, gC7b].map GroupData.path).Nodup) ∧
    loadModel (saveModel [instC7] [gC7a, gC7b] 7) =
      some ([instC7], allGroups [gC7a, gC7b]) := by
  exact ⟨by decide, (c7_store_round_trip [instC7] [gC7a, gC7b] 7 (by decide)).1⟩

/-- C9 (amended): a generated id is the first 12 characters of the
hyphenated UUIDv4 rendering — 8 hex digits, a hyphen at index 8, then 3 hex
digits — and the derived tmux session name is injective in the id, so a
name can only repeat when the 44 random id bits collide (the code performs
no uniqueness check). -/
theorem c9_id_format (d : List Char) (hlen : d.length = 32)
    (hhex : ∀ c ∈ d, isHexLower c = true) :
    (generateId d).data.length = 12 ∧
    (generateId d).data.get? 8 = some '-' ∧
    (∀ k, k < 12 → k ≠ 8 →
      ∃ c, (generateId d).data.get? k = some c ∧ isHexLower c = true) ∧
    (∀ a b : String, sessionName a = sessionName b → a = b) := by
  have hshape : (generateId d).data = d.take 8 ++ '-' :: (d.drop 8).take 3 := by
    show (uuidHyphenated d).take 12 = d.take 8 ++ '-' :: (d.drop 8).take 3
    simp only [uuidHyphenated]
    rw [List.take_append_eq_append_take]
    have h8 : (d.take 8).length = 8 := by
      simp [List.length_take]; omega
    rw [List.take_of_length_le (by omega), h8]
    show d.take 8 ++ List.take 4 ('-' :: ((d.drop 8).take 4 ++ _)) = _
    simp only [List.take_cons_succ]
    rw [List.take_append_eq_append_take]
    have h4 : ((d.drop 8).take 4).length = 4 := by
      simp [List.length_take, List.length_drop]; omega
    rw [h4, List.take_take]
    norm_num
  refine ⟨?_, ?_, ?_, ?_⟩
  · rw [hshape]
    simp [List.length_take, List.length_drop]
    omega
  · rw [hshape]
    have h8 : (d.take 8).length = 8 := by simp [List.length_take]; omega
    rw [List.get?_append_right (by rw [h8]), h8]
    simp
  · intro k hk hk8
    rw [hshape]
    by_cases hlt : k < 8
    · have hget : (d.take 8 ++ '-' :: (d.drop 8).take 3).get? k = (d.take 8).get? k := by
        rw [List.get?_append]
        simp [List.length_take]; omega
      rw [hget]
      have hkl : k < (d.take 8).length := by simp [List.length_take]; omega
      obtain ⟨c, hc⟩ : ∃ c, (d.take 8).get? k = some c :=
        ⟨(d.take 8).get ⟨k, hkl⟩, List.get?_eq_get hkl⟩
      refine ⟨c, hc, ?_⟩
      have hmem : c ∈ d.take 8 := List.get?_mem hc
      exact hhex c (List.mem_of_mem_take hmem)
    · have hk9 : 9 ≤ k := by omega
      have hget : (d.take 8 ++ '-' :: (d.drop 8).take 3).get? k =
          ((d.drop 8).take 3).get? (k - 9) := by
        rw [List.get?_append_right (by simp [List.length_take]; omega)]
        have h8 : (d.take 8).length = 8 := by simp [List.length_take]; omega
        rw [h8]
        have : k - 8 = (k - 9) + 1 := by omega
        rw [this]
        rfl
      rw [hget]
      have hkl : k - 9 < ((d.drop 8).take 3).length := by
        simp [List.length_take, List.length_drop]; omega
      obtain ⟨c, hc⟩ : ∃ c, ((d.drop 8).take 3).get? (k - 9) = some c :=
        ⟨((d.drop 8).take 3).get ⟨k - 9, hkl⟩, List.get?_eq_get hkl⟩
      refine ⟨c, hc, ?_⟩
      have hmem : c ∈ (d.drop 8).take 3 := List.get?_mem hc
      exact hhex c (List.mem_of_mem_drop (List.mem_of_mem_take hmem))
  · intro a b h
    have hd := congrArg String.data h
    simp only [sessionName, String.data_append] at hd
    have := List.append_cancel_left hd
    exact String.ext this

/-- C9 witness. -/
theorem c9_witness :
    (generateId (List.replicate 32 'a')).data.length = 12 ∧
    (generateId (List.replicate 32 'a')).data.get? 8 = some '-' ∧
    (∀ k, k < 12 → k ≠ 8 →
      ∃ c, (generateId (List.replicate 32 'a')).data.get? k = some c ∧
        isHexLower c = true) ∧
    (∀ a b : String, sessionName a = sessionName b → a = b) :=
  c9_id_format (List.replicate 32 'a') (by decide) (by decide)

end AgentHand
